import Mathlib

/-!
Verification of the opencode-consilium agent-invocation engine.

This file shallowly embeds the engine's core (src/agents.ts, src/defaults.ts,
src/index.ts `Consilium.run`) into Lean: pure string/JSON processing is
translated directly, and the effectful parts (process launches, timers, the
cancellation flag, hook invocations) are modelled by explicit oracles — a
`LaunchTerminal` value describes which of the launcher's terminal paths a
given attempt takes, and an `AttemptEnv` supplies, per attempt index, the
cancellation flag observed at the top of the retry loop and the launcher's
terminal behaviour.  Concurrency of the fan-out phase is modelled by an
explicit completion schedule fed to a `Promise.all`-style settling function.
-/

namespace Consilium

/-! ## JavaScript string helpers (trim / split semantics of the source) -/

/-- Whitespace removed by JavaScript `String.prototype.trim`
(the common members of the WhiteSpace / LineTerminator productions). -/
def isJsTrimWs (c : Char) : Bool :=
  c = ' ' || c = '\t' || c = '\n' || c = '\r' ||
  c = Char.ofNat 11 || c = Char.ofNat 12 || c = Char.ofNat 160 || c = Char.ofNat 0xFEFF

/-- JavaScript `s.trim()` on a character list: drop whitespace at both ends. -/
def jsTrim (cs : List Char) : List Char :=
  ((cs.dropWhile isJsTrimWs).reverse.dropWhile isJsTrimWs).reverse

/-- JavaScript `s.split('\n')`: split on every newline character;
the empty string yields one empty field. -/
def splitOnNl : List Char → List (List Char)
  | [] => [[]]
  | c :: rest =>
    let ls := splitOnNl rest
    if c = '\n' then [] :: ls
    else
      match ls with
      | [] => [[c]]
      | l :: ls' => (c :: l) :: ls'

/-! ## JSON values and `JSON.parse`

`parseJsonOutput` in src/agents.ts calls `JSON.parse` on every line, so the
embedding needs an executable JSON parser.  Numbers keep their source lexeme
(the engine never computes with them). -/

/-- A parsed JSON value. -/
inductive Json where
  | null : Json
  | bool (b : Bool) : Json
  | num (lexeme : String) : Json
  | str (s : String) : Json
  | arr (elems : List Json) : Json
  | obj (fields : List (String × Json)) : Json

/-- The opening-brace character, `{`. -/
def lbrace : Char := Char.ofNat 123

/-- The closing-brace character, `}`. -/
def rbrace : Char := Char.ofNat 125

/-- JSON insignificant whitespace (RFC 8259: space, tab, newline, return). -/
def isJsonWs (c : Char) : Bool :=
  c = ' ' || c = '\t' || c = '\n' || c = '\r'

/-- Drop leading JSON whitespace. -/
def skipWs (cs : List Char) : List Char := cs.dropWhile isJsonWs

/-- Value of a hexadecimal digit, if any. -/
def hexVal (c : Char) : Option Nat :=
  if '0' ≤ c ∧ c ≤ '9' then some (c.toNat - '0'.toNat)
  else if 'a' ≤ c ∧ c ≤ 'f' then some (c.toNat - 'a'.toNat + 10)
  else if 'A' ≤ c ∧ c ≤ 'F' then some (c.toNat - 'A'.toNat + 10)
  else none

/-- Parse the body of a JSON string after the opening quote, handling the
escape sequences of RFC 8259.  Returns the decoded characters and the rest of
the input after the closing quote.  `fuel` bounds the recursion. -/
def parseStringBody (fuel : Nat) (cs : List Char) : Option (List Char × List Char) :=
  match fuel with
  | 0 => none
  | fuel + 1 =>
    match cs with
    | [] => none
    | '"' :: rest => some ([], rest)
    | '\\' :: rest =>
      let esc : Option (Char × List Char) :=
        match rest with
        | [] => none
        | e :: rest2 =>
          if e = '"' then some ('"', rest2)
          else if e = '\\' then some ('\\', rest2)
          else if e = '/' then some ('/', rest2)
          else if e = 'b' then some (Char.ofNat 8, rest2)
          else if e = 'f' then some (Char.ofNat 12, rest2)
          else if e = 'n' then some ('\n', rest2)
          else if e = 'r' then some ('\r', rest2)
          else if e = 't' then some ('\t', rest2)
          else if e = 'u' then
            match rest2 with
            | a :: b :: c :: d :: rest3 =>
              match hexVal a, hexVal b, hexVal c, hexVal d with
              | some ha, some hb, some hc, some hd =>
                some (Char.ofNat (((ha * 16 + hb) * 16 + hc) * 16 + hd), rest3)
              | _, _, _, _ => none
            | _ => none
          else none
      match esc with
      | some (c, rest') =>
        match parseStringBody fuel rest' with
        | some (s, r) => some (c :: s, r)
        | none => none
      | none => none
    | c :: rest =>
      if c.toNat < 32 then none
      else
        match parseStringBody fuel rest with
        | some (s, r) => some (c :: s, r)
        | none => none

/-- Parse a JSON number (RFC 8259 grammar), returning its lexeme and the rest. -/
def parseNumber (cs : List Char) : Option (List Char × List Char) :=
  let signed : List Char × List Char :=
    match cs with
    | '-' :: rest => (['-'], rest)
    | _ => ([], cs)
  let sign := signed.1
  let cs1 := signed.2
  let intRes : Option (List Char × List Char) :=
    match cs1 with
    | '0' :: rest => some (['0'], rest)
    | c :: _ => if c.isDigit then some (cs1.span (fun d => d.isDigit)) else none
    | [] => none
  match intRes with
  | none => none
  | some (ip, cs2) =>
    let fracRes : Option (List Char × List Char) :=
      match cs2 with
      | '.' :: rest =>
        let ds := rest.takeWhile (fun d => d.isDigit)
        if ds = [] then none else some ('.' :: ds, rest.dropWhile (fun d => d.isDigit))
      | _ => some ([], cs2)
    match fracRes with
    | none => none
    | some (fp, cs3) =>
      let expRes : Option (List Char × List Char) :=
        match cs3 with
        | e :: rest =>
          if e = 'e' ∨ e = 'E' then
            let sgned : List Char × List Char :=
              match rest with
              | '+' :: r => (['+'], r)
              | '-' :: r => (['-'], r)
              | _ => ([], rest)
            let ds := sgned.2.takeWhile (fun d => d.isDigit)
            if ds = [] then none
            else some (e :: (sgned.1 ++ ds), sgned.2.dropWhile (fun d => d.isDigit))
          else some ([], cs3)
        | [] => some ([], cs3)
      match expRes with
      | none => none
      | some (ep, cs4) => some (sign ++ ip ++ fp ++ ep, cs4)

mutual

/-- Parse one JSON value (leading whitespace allowed). -/
def parseValue (fuel : Nat) (cs : List Char) : Option (Json × List Char) :=
  match fuel with
  | 0 => none
  | fuel + 1 =>
    match skipWs cs with
    | [] => none
    | c :: rest =>
      if c = lbrace then
        match skipWs rest with
        | c2 :: r2 =>
          if c2 = rbrace then some (.obj [], r2)
          else
            match parseMembers fuel rest with
            | some (fs, r) => some (.obj fs, r)
            | none => none
        | [] => none
      else if c = '[' then
        match skipWs rest with
        | ']' :: r2 => some (.arr [], r2)
        | _ =>
          match parseElems fuel rest with
          | some (vs, r) => some (.arr vs, r)
          | none => none
      else if c = '"' then
        match parseStringBody (rest.length + 1) rest with
        | some (s, r) => some (.str (String.mk s), r)
        | none => none
      else
        let cs1 := c :: rest
        if cs1.take 4 = ['t', 'r', 'u', 'e'] then some (.bool true, cs1.drop 4)
        else if cs1.take 5 = ['f', 'a', 'l', 's', 'e'] then some (.bool false, cs1.drop 5)
        else if cs1.take 4 = ['n', 'u', 'l', 'l'] then some (.null, cs1.drop 4)
        else
          match parseNumber cs1 with
          | some (lex, rest') => some (.num (String.mk lex), rest')
          | none => none

/-- Parse the members of a JSON object after the opening brace
(at least one member; the empty object is handled by `parseValue`). -/
def parseMembers (fuel : Nat) (cs : List Char) : Option (List (String × Json) × List Char) :=
  match fuel with
  | 0 => none
  | fuel + 1 =>
    match skipWs cs with
    | '"' :: rest =>
      match parseStringBody (rest.length + 1) rest with
      | none => none
      | some (k, r1) =>
        match skipWs r1 with
        | ':' :: r2 =>
          match parseValue fuel r2 with
          | none => none
          | some (v, r3) =>
            match skipWs r3 with
            | c4 :: r4 =>
              if c4 = ',' then
                match parseMembers fuel r4 with
                | some (fs, r5) => some ((String.mk k, v) :: fs, r5)
                | none => none
              else if c4 = rbrace then some ([(String.mk k, v)], r4)
              else none
            | [] => none
        | _ => none
    | _ => none

/-- Parse the elements of a JSON array after the opening bracket
(at least one element; the empty array is handled by `parseValue`). -/
def parseElems (fuel : Nat) (cs : List Char) : Option (List Json × List Char) :=
  match fuel with
  | 0 => none
  | fuel + 1 =>
    match parseValue fuel cs with
    | none => none
    | some (v, r1) =>
      match skipWs r1 with
      | ',' :: r2 =>
        match parseElems fuel r2 with
        | some (vs, r3) => some (v :: vs, r3)
        | none => none
      | ']' :: r2 => some (v :: [], r2)
      | _ => none

end

/-- `JSON.parse`: one JSON value covering the whole input
(surrounding whitespace allowed), otherwise failure. -/
def jsonParse (cs : List Char) : Option Json :=
  match parseValue (cs.length + 1) cs with
  | some (v, rest) => if skipWs rest = [] then some v else none
  | none => none

/-! ## JavaScript value semantics used by the decoder -/

/-- Whether a JSON number lexeme denotes zero (all mantissa digits are `0`). -/
def numIsZero (lex : String) : Bool :=
  (lex.data.takeWhile (fun c => c ≠ 'e' ∧ c ≠ 'E')).all (fun c => ¬ c.isDigit ∨ c = '0')

/-- JavaScript truthiness of a JSON value. -/
def jsTruthy : Json → Bool
  | .null => false
  | .bool b => b
  | .num lex => ¬ numIsZero lex
  | .str s => s ≠ ""
  | .arr _ => true
  | .obj _ => true

/-- Property lookup on a parsed object: later duplicate keys win,
as in `JSON.parse`. -/
def lookupLast (fields : List (String × Json)) (k : String) : Option Json :=
  fields.foldl (fun acc kv => if kv.1 = k then some kv.2 else acc) none

/-- JavaScript property access `v.k` (with `?.` semantics for the caller):
defined only on objects, `none` (undefined) otherwise. -/
def jsMember : Json → String → Option Json
  | .obj fs, k => lookupLast fs k
  | _, _ => none

/-- JavaScript strict equality `v === s` between a possibly-undefined value
and a string literal: true exactly when the value is that string. -/
def jsStrEq : Option Json → String → Bool
  | some (.str t), s => t = s
  | _, _ => false

mutual

/-- JavaScript `String(v)` coercion of a JSON value (numbers keep their
lexeme; this is exact for the string payloads the engine actually pushes). -/
def jsToString : Json → String
  | .null => "null"
  | .bool true => "true"
  | .bool false => "false"
  | .num lex => lex
  | .str s => s
  | .arr xs => jsToStringArr xs true
  | .obj _ => "[object Object]"

/-- `Array.prototype.join(',')` over coerced elements (`null` joins as empty). -/
def jsToStringArr : List Json → Bool → String
  | [], _ => ""
  | x :: xs, first =>
    (if first then "" else ",") ++
    (match x with
     | .null => ""
     | v => jsToString v) ++
    jsToStringArr xs false

end

/-! ## The decoder `parseJsonOutput` (src/agents.ts lines 52-71) -/

/-- Direct transliteration of `parseJsonOutput`: trim the whole output, split
on newlines, and for each line: skip it when blank, attempt `JSON.parse`
(silently skipping parse failures — including the `TypeError` a `null` record
raises on property access), and push `event.part.text` whenever
`event.type === 'text' && event.part?.text` holds; finally join with `''`. -/
def parseJsonOutput (output : String) : String :=
  let lines := splitOnNl (jsTrim output.data)
  let textParts := lines.foldl (fun acc line =>
      let trimmed := jsTrim line
      if trimmed = [] then acc
      else
        match jsonParse trimmed with
        | none => acc
        | some event =>
          if jsStrEq (jsMember event "type") "text" then
            match (jsMember event "part").bind (fun p => jsMember p "text") with
            | some t => if jsTruthy t then acc ++ [jsToString t] else acc
            | none => acc
          else acc)
    ([] : List String)
  String.join textParts

/-- The text contribution of a single line of decoder input: `none` when the
line is blank, unparseable, or not a truthy-payload "text" record, otherwise
the payload pushed by the decoder loop. -/
def textPartOfLine (line : List Char) : Option String :=
  let trimmed := jsTrim line
  if trimmed = [] then none
  else
    match jsonParse trimmed with
    | none => none
    | some event =>
      if jsStrEq (jsMember event "type") "text" then
        match (jsMember event "part").bind (fun p => jsMember p "text") with
        | some t => if jsTruthy t then some (jsToString t) else none
        | none => none
      else none

/-! ## Invocation outcomes (src/types.ts `AgentResult`) -/

/-- Failure classification of a non-successful outcome (src/types.ts line 19). -/
inductive ErrorCode where
  | TIMEOUT
  | EMPTY_RESPONSE
  | SPAWN_ERROR
  | PARSE_ERROR
  deriving DecidableEq, Repr

/-- Result of one agent invocation (src/types.ts `AgentResult`). -/
structure AgentResult where
  agent : String
  text : String
  success : Bool
  duration : Option Nat := none
  errorCode : Option ErrorCode := none
  attempt : Option Nat := none
  deriving DecidableEq, Repr

/-! ## The Process Launcher `callAgentOnce` (src/agents.ts lines 179-281)

A launch resolves through exactly one of three event paths — the timeout
timer, the child's `close` event, or the child's `error` event (whichever
fires first wins via the `finished` guard).  `LaunchTerminal` records which
path won and the data it carried; `callAgentOnce` maps it to the outcome the
source resolves with. -/

/-- The winning terminal event of one launch. -/
inductive LaunchTerminal where
  | close (stdout stderr : String)
  | timeoutFired
  | errored (message : String)
  deriving DecidableEq, Repr

/-- Transliteration of the three `resolve` sites of `callAgentOnce`. -/
def callAgentOnce (agentName _prompt : String) (_timeoutMs attempt : Nat) :
    LaunchTerminal → AgentResult
  | .timeoutFired =>
    { agent := agentName
      text := "[Таймаут " ++ agentName ++ "]"
      success := false
      errorCode := some ErrorCode.TIMEOUT
      attempt := some attempt }
  | .errored msg =>
    { agent := agentName
      text := "[Ошибка: " ++ msg ++ "]"
      success := false
      errorCode := some ErrorCode.SPAWN_ERROR
      attempt := some attempt }
  | .close stdout stderr =>
    let text := parseJsonOutput stdout
    if text = "" then
      { agent := agentName
        text := "[Агент " ++ agentName ++ " не вернул текст]" ++
          (if stderr ≠ "" then " stderr: " ++ String.mk (stderr.data.take 500) else "")
        success := false
        errorCode := some ErrorCode.EMPTY_RESPONSE
        attempt := some attempt }
    else
      { agent := agentName
        text := text
        success := true
        attempt := some attempt }

/-! ## The Retry Controller `callAgent` (src/agents.ts lines 109-174) -/

/-- Transliteration of `calculateRetryDelay` (src/agents.ts lines 76-85). -/
def calculateRetryDelay (attempt baseDelay : Nat) (exponentialBackoff : Bool) : Nat :=
  if ¬ exponentialBackoff then baseDelay
  else baseDelay * 2 ^ attempt

/-- Oracle for the effects observed by the retry loop, per attempt index:
the process-wide cancellation flag read at the top of the loop iteration, the
launcher's terminal event for the attempt, and the wall-clock duration the
source measures around a successful attempt. -/
structure AttemptEnv where
  cancelled : Nat → Bool
  terminal : Nat → LaunchTerminal
  elapsed : Nat → Nat

/-- One executed loop iteration of the retry loop: the attempt index, the
backoff delay slept at the top of the iteration (none for the first attempt),
and the launcher outcome of the attempt. -/
structure AttemptRecord where
  idx : Nat
  sleptBefore : Option Nat
  result : AgentResult
  deriving DecidableEq, Repr

/-- The outcome `callAgent` returns when it observes the cancellation flag at
the top of a loop iteration (src/agents.ts lines 129-137). -/
def cancelledOutcome (agentName : String) (attempt : Nat) : AgentResult :=
  { agent := agentName
    text := "[Отменено]"
    success := false
    errorCode := some ErrorCode.TIMEOUT
    attempt := some attempt }

/-- The synthetic fallback outcome of `callAgent` when the loop ends with no
recorded error (src/agents.ts lines 168-173). -/
def exhaustedOutcome (agentName : String) : AgentResult :=
  { agent := agentName
    text := "[Все попытки исчерпаны]"
    success := false
    errorCode := some ErrorCode.TIMEOUT }

/-- The retry loop of `callAgent` from a given attempt index, with
`fuel = maxAttempts - attempt` remaining iterations and the `lastError`
accumulator.  Returns the outcome together with the list of executed loop
iterations (none is recorded for an iteration pre-empted by cancellation:
that iteration sleeps nothing and spawns nothing). -/
def callAgentFrom (env : AttemptEnv) (agentName prompt : String)
    (timeoutMs delay : Nat) (exponentialBackoff : Bool) :
    Nat → Nat → Option AgentResult → AgentResult × List AttemptRecord
  | _, 0, lastError => (lastError.getD (exhaustedOutcome agentName), [])
  | attempt, fuel + 1, _lastError =>
    if env.cancelled attempt then
      (cancelledOutcome agentName attempt, [])
    else
      let sleptBefore : Option Nat :=
        if attempt > 0 then some (calculateRetryDelay (attempt - 1) delay exponentialBackoff)
        else none
      let result := callAgentOnce agentName prompt timeoutMs attempt (env.terminal attempt)
      if result.success then
        ({ result with duration := some (env.elapsed attempt) },
         [{ idx := attempt, sleptBefore := sleptBefore, result := result }])
      else
        let rest := callAgentFrom env agentName prompt timeoutMs delay exponentialBackoff
          (attempt + 1) fuel (some result)
        (rest.1, { idx := attempt, sleptBefore := sleptBefore, result := result } :: rest.2)

/-- `callAgent`: up to `retries + 1` sequential attempts starting at index 0
(src/agents.ts lines 125-166).  The error hooks the source awaits on failing
attempts carry no data back into the loop and are not modelled. -/
def callAgent (env : AttemptEnv) (agentName prompt : String)
    (timeoutMs retries delay : Nat) (exponentialBackoff : Bool) :
    AgentResult × List AttemptRecord :=
  callAgentFrom env agentName prompt timeoutMs delay exponentialBackoff 0 (retries + 1) none

/-! ## Configuration (src/types.ts) -/

/-- An expert prompt as configured: a fixed string (with placeholder
substitution) or a function of the task (src/types.ts line 51). -/
inductive PromptSpec where
  | str (s : String)
  | fn (f : String → String)

/-- Task descriptor (src/types.ts `ExpertConfig`). -/
structure ExpertConfig where
  name : String
  prompt : Option PromptSpec := none
  timeout : Option Nat := none
  retries : Option Nat := none
  priority : Option Nat := none
  enabled : Option Bool := none

/-- Chair configuration (src/types.ts `ChairConfig`); the optional custom
`promptTemplate` field is not modelled (the claims concern the default
template, which the source keeps as a standalone function). -/
structure ChairConfig where
  agent : String
  timeout : Option Nat := none
  maxExpertTextLength : Option Nat := none
  deriving DecidableEq, Repr

/-- Timeout configuration (src/types.ts `TimeoutConfig`). -/
structure TimeoutConfig where
  expert : Nat
  chair : Nat
  shutdown : Nat
  deriving DecidableEq, Repr

/-- Retry configuration (src/types.ts `RetryConfig`). -/
structure RetryConfig where
  expertRetries : Nat
  chairRetries : Nat
  delay : Nat
  exponentialBackoff : Bool
  deriving DecidableEq, Repr

/-- The slice of `ConsiliumConfig` the modelled operations read. -/
structure ConsiliumConfig where
  experts : List ExpertConfig
  chair : ChairConfig
  timeouts : TimeoutConfig
  retry : RetryConfig

/-! ## Prompt construction (src/agents.ts `buildPrompt`, src/defaults.ts) -/

/-- `DEFAULT_EXPERT_PROMPTS` (src/defaults.ts lines 11-17): the per-name
default prompt functions; lookup misses fall back to the `default` entry. -/
def DEFAULT_EXPERT_PROMPTS (name : String) : Option (String → String) :=
  if name = "arch" then
    some (fun task => "Как архитектор, оцени задачу кратко (3-5 предложений): " ++ task)
  else if name = "ux" then
    some (fun task => "Как UX-специалист, оцени задачу кратко (3-5 предложений): " ++ task)
  else if name = "ba" then
    some (fun task => "Как бизнес-аналитик, оцени задачу кратко (3-5 предложений): " ++ task)
  else if name = "sec" then
    some (fun task => "Как эксперт по безопасности, оцени задачу кратко (3-5 предложений): " ++ task)
  else none

/-- The `default` entry of `DEFAULT_EXPERT_PROMPTS`. -/
def defaultExpertPrompt (task : String) : String :=
  "Проанализируй задачу как эксперт (кратко, 3-5 предложений): " ++ task

/-- JavaScript `prompt.replace(/\$\x7btask\x7d/g, task)`: substitute every
occurrence of the task placeholder. -/
def replaceTaskPlaceholder (s task : String) : String :=
  s.replace "$\x7btask\x7d" task

/-- Transliteration of `buildPrompt` (src/agents.ts lines 90-104). -/
def buildPrompt (expert : ExpertConfig) (task : String) : String :=
  match expert.prompt with
  | some (.fn f) => f task
  | some (.str s) => replaceTaskPlaceholder s task
  | none =>
    match DEFAULT_EXPERT_PROMPTS expert.name with
    | some f => f task
    | none => defaultExpertPrompt task

/-! ## The Fan-Out Coordinator `callExpertsParallel` (src/agents.ts 286-316)

The source maps each enabled expert to a promise and joins them with
`Promise.all`.  The settling of those promises is modelled explicitly: a
completion schedule lists slot indices in the order the invocations happen to
complete, and each completion writes its outcome into its own slot of the
result array.  The outcome each expert's promise fulfils with is deterministic
given the per-expert `AttemptEnv` oracle. -/

/-- Per-expert effect oracles for one fan-out round. -/
structure ExpertCallEnv where
  attemptEnv : String → AttemptEnv

/-- JavaScript `a || b` on an optional number: `0` is falsy, so a configured
`0` falls back just like an absent value (`expert.timeout || config.timeouts.expert`). -/
def jsOrNum (a : Option Nat) (fallback : Nat) : Nat :=
  match a with
  | some v => if v = 0 then fallback else v
  | none => fallback

/-- The outcome one enabled expert's promise fulfils with: build the prompt,
then run the Retry Controller with the per-expert timeout/retries overrides
(src/agents.ts lines 293-313; the start/end hooks carry no data back). -/
def runExpert (env : ExpertCallEnv) (task : String) (config : ConsiliumConfig)
    (expert : ExpertConfig) : AgentResult :=
  let prompt := buildPrompt expert task
  (callAgent (env.attemptEnv expert.name) expert.name prompt
    (jsOrNum expert.timeout config.timeouts.expert)
    (expert.retries.getD config.retry.expertRetries)
    config.retry.delay config.retry.exponentialBackoff).1

/-- The enabled-task filter `experts.filter(e => e.enabled !== false)`. -/
def enabledOf (experts : List ExpertConfig) : List ExpertConfig :=
  experts.filter (fun e => e.enabled ≠ some false)

/-- `Promise.all` settling: each index of `sched` (a completion order) writes
the corresponding promise's value into its own slot; slots of promises that
never complete stay `none`. -/
def settleAll (values : List AgentResult) (sched : List Nat) : List (Option AgentResult) :=
  sched.foldl (fun acc i =>
      match values[i]? with
      | some v => acc.set i (some v)
      | none => acc)
    (List.replicate values.length none)

/-- `callExpertsParallel`: filter to the enabled experts, fan out one retry
sequence per expert, and join the outcomes in slot order under an arbitrary
completion schedule. -/
def callExpertsParallel (env : ExpertCallEnv) (experts : List ExpertConfig)
    (task : String) (config : ConsiliumConfig) (sched : List Nat) :
    List (Option AgentResult) :=
  settleAll ((enabledOf experts).map (runExpert env task config)) sched

/-! ## The Fan-In default template (src/defaults.ts lines 22-42) -/

/-- JavaScript `String.prototype.toUpperCase` restricted to the ASCII range
(the source applies it to expert names). -/
def jsToUpperCase (s : String) : String := String.mk (s.data.map Char.toUpper)

/-- The per-expert section the default chair template appends:
`### ${agent.toUpperCase()}\n${text.substring(0, 3000)}\n\n`. -/
def chairSection (r : AgentResult) : String :=
  "### " ++ jsToUpperCase r.agent ++ "\n" ++ String.mk (r.text.data.take 3000) ++ "\n\n"

/-- The fixed header of the default chair template, up to and including the
expert-opinions heading. -/
def chairHeader (task : String) : String :=
  "Синтезируй мнения экспертов и составь итоговый план.\n\n" ++
  "## Задача\n" ++ task ++ "\n\n" ++
  "## Мнения экспертов\n"

/-- The fixed footer of the default chair template. -/
def chairFooter : String :=
  "## Требования к ответу\n" ++
  "1. **Резюме** (1-2 предложения)\n" ++
  "2. **Топ-3 приоритетных действия** с обоснованием\n" ++
  "3. **Главный риск** и митигация\n" ++
  "4. **Оценка трудозатрат** (если применимо)"

/-- Transliteration of `DEFAULT_CHAIR_PROMPT_TEMPLATE` (src/defaults.ts lines
22-42): header, then one section per expert result with the text truncated by
the hard-coded `substring(0, 3000)`, then the footer. -/
def DEFAULT_CHAIR_PROMPT_TEMPLATE (task : String) (experts : List AgentResult) : String :=
  (experts.foldl (fun prompt r => prompt ++ chairSection r) (chairHeader task)) ++ chairFooter

/-- Modelled from the spec: the default chair template as the specification
words it, with each expert text truncated to the *configured* maximum length
(`ChairConfig.maxExpertTextLength`) rather than the source's hard-coded 3000.
This definition exists only to be compared against
`DEFAULT_CHAIR_PROMPT_TEMPLATE`. -/
def chairPromptWithConfiguredMax (maxExpertTextLength : Nat) (task : String)
    (experts : List AgentResult) : String :=
  (experts.foldl
    (fun prompt r =>
      prompt ++ "### " ++ jsToUpperCase r.agent ++ "\n" ++
        String.mk (r.text.data.take maxExpertTextLength) ++ "\n\n")
    (chairHeader task)) ++ chairFooter

/-! ## The round driver `Consilium.run` (src/index.ts lines 375-506)

`run` is modelled as a state-and-oracle function: it consumes the instance
status, produces the new status together with either a thrown error
(`Except.error`) or the returned `ConsiliumResult`, and reads its effects
(CLI availability, hook failures, the phase outcomes, and the cancellation
flag observed after each phase) from a `RunEnv` oracle.  Wall-clock fields of
the result are not modelled. -/

/-- Round status (src/types.ts `ConsiliumStatus`). -/
inductive ConsiliumStatus where
  | idle
  | running_experts
  | running_chair
  | completed
  | failed
  | cancelled
  deriving DecidableEq, Repr

/-- Round result (src/types.ts `ConsiliumResult`); `metadataCancelled` models
whether the `metadata` record carries the `cancelled: true` marker. -/
structure ConsiliumResult where
  text : String
  experts : List AgentResult
  chair : AgentResult
  success : Bool
  metadataCancelled : Bool
  deriving DecidableEq, Repr

/-- Transliteration of `Consilium.createCancelledResult` (src/index.ts lines
635-648): a normal result with `success: false`, the cancellation placeholder
text, and the `cancelled: true` metadata marker. -/
def createCancelledResult (config : ConsiliumConfig) (experts : List AgentResult)
    (chair : Option AgentResult) : ConsiliumResult :=
  { text := "[Консилиум отменён]"
    experts := experts
    chair := chair.getD { agent := config.chair.agent, text := "[Отменено]", success := false }
    success := false
    metadataCancelled := true }

/-- Effect oracle for one `run` call. -/
structure RunEnv where
  opencodeAvailable : Bool
  onStartThrows : Bool
  expertResults : List AgentResult
  cancelledAfterExperts : Bool
  chairResult : AgentResult
  cancelledAfterChair : Bool
  onEndThrows : Bool

/-- Transliteration of `Consilium.run` (no option overrides): reject when the
status is not `idle`; the CLI-availability check throws *outside* the
`try`/`catch`, leaving the status at `running_experts`; inside the `try`,
any thrown error flips the status to `failed` and rethrows; a cancellation
flag observed after either phase returns the cancelled result normally. -/
def runModel (config : ConsiliumConfig) (status : ConsiliumStatus) (env : RunEnv) :
    Except String ConsiliumResult × ConsiliumStatus :=
  if status ≠ ConsiliumStatus.idle then
    (Except.error "Consilium уже запущен", status)
  else if ¬ env.opencodeAvailable then
    (Except.error "OpenCode CLI не найден. Установите opencode-cli.",
     ConsiliumStatus.running_experts)
  else if env.onStartThrows then
    (Except.error "onStart hook error", ConsiliumStatus.failed)
  else if (enabledOf config.experts).isEmpty then
    (Except.error "Нет активных экспертов для консилиума", ConsiliumStatus.failed)
  else if env.cancelledAfterExperts then
    (Except.ok (createCancelledResult config env.expertResults none),
     ConsiliumStatus.cancelled)
  else if env.cancelledAfterChair then
    (Except.ok (createCancelledResult config env.expertResults (some env.chairResult)),
     ConsiliumStatus.cancelled)
  else if env.onEndThrows then
    (Except.error "onEnd hook error", ConsiliumStatus.failed)
  else
    (Except.ok
      { text := env.chairResult.text
        experts := env.expertResults
        chair := env.chairResult
        success := env.chairResult.success
        metadataCancelled := false },
     ConsiliumStatus.completed)

/-! ## Concrete fixtures used by the witnesses -/

/-- A one-record stream whose decoded text is `"ok"`. -/
def okStdout : String := "\x7b\"type\":\"text\",\"part\":\x7b\"text\":\"ok\"\x7d\x7d"

/-- Oracle: never cancelled, every attempt closes with a good stream. -/
def envAlwaysOk : AttemptEnv :=
  ⟨fun _ => false, fun _ => LaunchTerminal.close okStdout "", fun _ => 5⟩

/-- Oracle: never cancelled, the first attempt closes with empty output
(an `EMPTY_RESPONSE` failure), every later attempt succeeds. -/
def envFailThenOk : AttemptEnv :=
  ⟨fun _ => false,
   fun k => if k = 0 then LaunchTerminal.close "" "" else LaunchTerminal.close okStdout "",
   fun _ => 5⟩

/-- Oracle: the cancellation flag is always set. -/
def envCancelled : AttemptEnv :=
  ⟨fun _ => true, fun _ => LaunchTerminal.close okStdout "", fun _ => 5⟩

/-- The loop body of `parseJsonOutput`, named so the accumulation can be
characterised: it is definitionally the function folded over the lines. -/
def decodeLineStep (acc : List String) (line : List Char) : List String :=
  let trimmed := jsTrim line
  if trimmed = [] then acc
  else
    match jsonParse trimmed with
    | none => acc
    | some event =>
      if jsStrEq (jsMember event "type") "text" then
        match (jsMember event "part").bind (fun p => jsMember p "text") with
        | some t => if jsTruthy t then acc ++ [jsToString t] else acc
        | none => acc
      else acc

/-- A configuration with one enabled expert. -/
def configOneExpert : ConsiliumConfig :=
  ⟨[{ name := "arch" }], ⟨"consilium", none, none⟩, ⟨50, 50, 50⟩, ⟨1, 1, 10, true⟩⟩

/-- A successful chair outcome. -/
def chairStub : AgentResult := { agent := "consilium", text := "plan", success := true }

/-- Run oracle: the CLI-availability precheck fails. -/
def envCliMissing : RunEnv := ⟨false, false, [], false, chairStub, false, false⟩

/-- Run oracle: everything healthy, but cancellation is observed right after
the expert phase settles. -/
def envCancelAfterExperts : RunEnv := ⟨true, false, [], true, chairStub, false, false⟩

/-! ## Retry Controller lemmas -/

/-- The retry loop executes at most `fuel` iterations. -/
theorem callAgentFrom_length (env : AttemptEnv) (agentName prompt : String)
    (timeoutMs delay : Nat) (eb : Bool) :
    ∀ (fuel attempt : Nat) (le : Option AgentResult),
      (callAgentFrom env agentName prompt timeoutMs delay eb attempt fuel le).2.length ≤ fuel
  | 0, _, _ => by simp [callAgentFrom]
  | fuel + 1, attempt, le => by
    simp only [callAgentFrom]
    by_cases h : env.cancelled attempt
    · simp [h]
    · simp only [h, if_false]
      by_cases hs :
          (callAgentOnce agentName prompt timeoutMs attempt (env.terminal attempt)).success
      · simp [hs]
      · simpa [hs] using
          Nat.succ_le_succ
            (callAgentFrom_length env agentName prompt timeoutMs delay eb fuel (attempt + 1)
              (some (callAgentOnce agentName prompt timeoutMs attempt (env.terminal attempt))))

/-- A successful launcher outcome carries no failure code and non-empty text. -/
theorem callAgentOnce_success_inv (agentName prompt : String) (timeoutMs attempt : Nat)
    (t : LaunchTerminal)
    (h : (callAgentOnce agentName prompt timeoutMs attempt t).success = true) :
    (callAgentOnce agentName prompt timeoutMs attempt t).errorCode = none ∧
    (callAgentOnce agentName prompt timeoutMs attempt t).text ≠ "" := by
  cases t with
  | timeoutFired => simp [callAgentOnce] at h
  | errored m => simp [callAgentOnce] at h
  | close stdout stderr =>
    simp only [callAgentOnce] at h ⊢
    by_cases he : parseJsonOutput stdout = ""
    · simp [he] at h
    · simp [he]

/-- Invariant of the retry loop: whenever the accumulated `lastError` is a
failing outcome, a successful final outcome has no failure code and non-empty
text. -/
theorem callAgentFrom_success_inv (env : AttemptEnv) (agentName prompt : String)
    (timeoutMs delay : Nat) (eb : Bool) :
    ∀ (fuel attempt : Nat) (le : Option AgentResult),
      (∀ r, le = some r → r.success = false) →
      (callAgentFrom env agentName prompt timeoutMs delay eb attempt fuel le).1.success = true →
      (callAgentFrom env agentName prompt timeoutMs delay eb attempt fuel le).1.errorCode = none ∧
      (callAgentFrom env agentName prompt timeoutMs delay eb attempt fuel le).1.text ≠ ""
  | 0, _, le => by
    intro hle hs
    simp only [callAgentFrom] at hs ⊢
    cases le with
    | none => simp [exhaustedOutcome] at hs
    | some r => simp [hle r rfl] at hs
  | fuel + 1, attempt, le => by
    intro hle hs
    simp only [callAgentFrom] at hs ⊢
    by_cases h : env.cancelled attempt
    · simp [h, cancelledOutcome] at hs
    · simp only [h, if_false] at hs ⊢
      by_cases hsucc :
          (callAgentOnce agentName prompt timeoutMs attempt (env.terminal attempt)).success
      · simp only [hsucc, if_true] at hs ⊢
        exact callAgentOnce_success_inv agentName prompt timeoutMs attempt
          (env.terminal attempt) hsucc
      · simp only [hsucc, if_false] at hs ⊢
        exact callAgentFrom_success_inv env agentName prompt timeoutMs delay eb fuel (attempt + 1)
          (some (callAgentOnce agentName prompt timeoutMs attempt (env.terminal attempt)))
          (fun r hr => by cases hr; simpa using hsucc) hs

/-- Every recorded loop iteration slept exactly what `calculateRetryDelay`
prescribes at its index (and nothing before the first attempt). -/
theorem callAgentFrom_slept (env : AttemptEnv) (agentName prompt : String)
    (timeoutMs delay : Nat) (eb : Bool) :
    ∀ (fuel attempt : Nat) (le : Option AgentResult) (rec : AttemptRecord),
      rec ∈ (callAgentFrom env agentName prompt timeoutMs delay eb attempt fuel le).2 →
      rec.sleptBefore =
        if rec.idx = 0 then none else some (calculateRetryDelay (rec.idx - 1) delay eb)
  | 0, _, _, rec => by simp [callAgentFrom]
  | fuel + 1, attempt, le, rec => by
    intro hmem
    simp only [callAgentFrom] at hmem
    by_cases h : env.cancelled attempt = true
    · simp [h] at hmem
    · by_cases hsucc :
          (callAgentOnce agentName prompt timeoutMs attempt (env.terminal attempt)).success = true
      · simp only [h, hsucc] at hmem
        simp only [if_true, if_false, Bool.false_eq_true, List.mem_singleton] at hmem
        subst hmem
        rcases Nat.eq_zero_or_pos attempt with h0 | hpos
        · simp [h0]
        · simp [Nat.pos_iff_ne_zero.mp hpos, hpos]
      · simp only [h, hsucc] at hmem
        simp only [if_true, if_false, Bool.false_eq_true, List.mem_cons] at hmem
        rcases hmem with hmem | hmem
        · subst hmem
          rcases Nat.eq_zero_or_pos attempt with h0 | hpos
          · simp [h0]
          · simp [Nat.pos_iff_ne_zero.mp hpos, hpos]
        · exact callAgentFrom_slept env agentName prompt timeoutMs delay eb fuel (attempt + 1)
            (some (callAgentOnce agentName prompt timeoutMs attempt (env.terminal attempt)))
            rec hmem

/-- C2: a `callAgent` invocation configured with `retries = r` performs at
most `r + 1` attempts (the executed-iteration trace has at most `r + 1`
entries, produced sequentially), and when the first attempt's outcome is
successful the trace is exactly that one attempt and its outcome — with the
measured duration attached — is returned. -/
theorem callAgent_attempt_bound (env : AttemptEnv) (agentName prompt : String)
    (timeoutMs retries delay : Nat) (eb : Bool) :
    (callAgent env agentName prompt timeoutMs retries delay eb).2.length ≤ retries + 1 ∧
    (env.cancelled 0 = false →
      (callAgentOnce agentName prompt timeoutMs 0 (env.terminal 0)).success = true →
      (callAgent env agentName prompt timeoutMs retries delay eb).2 =
        [{ idx := 0, sleptBefore := none,
           result := callAgentOnce agentName prompt timeoutMs 0 (env.terminal 0) }] ∧
      (callAgent env agentName prompt timeoutMs retries delay eb).1 =
        { callAgentOnce agentName prompt timeoutMs 0 (env.terminal 0) with
          duration := some (env.elapsed 0) }) := by
  constructor
  · exact callAgentFrom_length env agentName prompt timeoutMs delay eb (retries + 1) 0 none
  · intro hc hs
    constructor <;> simp [callAgent, callAgentFrom, hc, hs]

/-- Witness for C2 at a concrete environment whose first attempt succeeds. -/
theorem callAgent_attempt_bound_witness :
    (callAgent envAlwaysOk "arch" "p" 50 3 10 true).2 =
      [{ idx := 0, sleptBefore := none,
         result := callAgentOnce "arch" "p" 50 0 (envAlwaysOk.terminal 0) }] ∧
    (callAgent envAlwaysOk "arch" "p" 50 3 10 true).1 =
      { callAgentOnce "arch" "p" 50 0 (envAlwaysOk.terminal 0) with
        duration := some (envAlwaysOk.elapsed 0) } :=
  (callAgent_attempt_bound envAlwaysOk "arch" "p" 50 3 10 true).2 rfl (by decide)

/-- C3: every executed attempt of index `k ≥ 1` was preceded by a sleep of
`baseDelay * 2 ^ (k - 1)` when exponential backoff is enabled and of
`baseDelay` otherwise, and attempt 0 was preceded by no sleep. -/
theorem callAgent_backoff_delays (env : AttemptEnv) (agentName prompt : String)
    (timeoutMs retries delay : Nat) (eb : Bool) :
    ∀ rec ∈ (callAgent env agentName prompt timeoutMs retries delay eb).2,
      (rec.idx = 0 → rec.sleptBefore = none) ∧
      (1 ≤ rec.idx →
        rec.sleptBefore = some (if eb then delay * 2 ^ (rec.idx - 1) else delay)) := by
  intro rec hmem
  have h := callAgentFrom_slept env agentName prompt timeoutMs delay eb (retries + 1) 0 none
    rec hmem
  constructor
  · intro h0
    simpa [h0] using h
  · intro h1
    have hne : rec.idx ≠ 0 := Nat.pos_iff_ne_zero.mp h1
    rw [h, if_neg hne]
    cases eb <;> simp [calculateRetryDelay]

/-- Witness for C3: with `baseDelay = 10` and exponential backoff, the second
attempt of a concrete run slept exactly `10 * 2 ^ 0`. -/
theorem callAgent_backoff_delays_witness :
    ((⟨1, some 10, callAgentOnce "arch" "p" 50 1 (LaunchTerminal.close okStdout "")⟩ :
        AttemptRecord) ∈ (callAgent envFailThenOk "arch" "p" 50 1 10 true).2) ∧
    (⟨1, some 10, callAgentOnce "arch" "p" 50 1 (LaunchTerminal.close okStdout "")⟩ :
        AttemptRecord).sleptBefore = some (if true then 10 * 2 ^ (1 - 1) else 10) := by
  refine ⟨by decide, ?_⟩
  exact (callAgent_backoff_delays envFailThenOk "arch" "p" 50 1 10 true _ (by decide)).2
    (by decide)

/-- C4: when the cancellation flag is observed at the top of any attempt-loop
iteration, the loop returns the `TIMEOUT`-class cancellation outcome at once:
the remaining trace is empty (no sleep, no launch, no further attempt). -/
theorem callAgent_cancellation_preempts (env : AttemptEnv) (agentName prompt : String)
    (timeoutMs delay : Nat) (eb : Bool) (attempt fuel : Nat) (lastError : Option AgentResult)
    (h : env.cancelled attempt = true) :
    callAgentFrom env agentName prompt timeoutMs delay eb attempt (fuel + 1) lastError =
      (cancelledOutcome agentName attempt, []) ∧
    (cancelledOutcome agentName attempt).success = false ∧
    (cancelledOutcome agentName attempt).errorCode = some ErrorCode.TIMEOUT := by
  refine ⟨?_, rfl, rfl⟩
  simp [callAgentFrom, h]

/-- Witness for C4 at a concrete always-cancelled environment. -/
theorem callAgent_cancellation_preempts_witness :
    callAgentFrom envCancelled "arch" "p" 50 10 true 0 2 none =
      (cancelledOutcome "arch" 0, []) ∧
    (cancelledOutcome "arch" 0).success = false ∧
    (cancelledOutcome "arch" 0).errorCode = some ErrorCode.TIMEOUT :=
  callAgent_cancellation_preempts envCancelled "arch" "p" 50 10 true 0 1 none rfl

/-- C7: a launch that closes normally but decodes to empty text yields a
failing outcome classified `EMPTY_RESPONSE`, never a success. -/
theorem callAgentOnce_empty_response (agentName prompt : String) (timeoutMs attempt : Nat)
    (stdout stderr : String) (h : parseJsonOutput stdout = "") :
    (callAgentOnce agentName prompt timeoutMs attempt
        (LaunchTerminal.close stdout stderr)).success = false ∧
    (callAgentOnce agentName prompt timeoutMs attempt
        (LaunchTerminal.close stdout stderr)).errorCode = some ErrorCode.EMPTY_RESPONSE := by
  simp [callAgentOnce, h]

/-- Witness for C7: a process that exits with non-JSON output decodes to
empty text and is classified `EMPTY_RESPONSE`. -/
theorem callAgentOnce_empty_response_witness :
    (callAgentOnce "arch" "p" 50 0
        (LaunchTerminal.close "garbage" "boom")).success = false ∧
    (callAgentOnce "arch" "p" 50 0
        (LaunchTerminal.close "garbage" "boom")).errorCode = some ErrorCode.EMPTY_RESPONSE :=
  callAgentOnce_empty_response "arch" "p" 50 0 "garbage" "boom" (by decide)

/-- C9: on every path of the engine — successful completion, empty response,
timeout, spawn error, cancellation, attempts exhausted — a produced outcome
with `success = true` has no failure classification and non-empty text. -/
theorem invocation_outcome_invariant (env : AttemptEnv) (agentName prompt : String)
    (timeoutMs retries delay : Nat) (eb : Bool) :
    ((callAgent env agentName prompt timeoutMs retries delay eb).1.success = true →
      (callAgent env agentName prompt timeoutMs retries delay eb).1.errorCode = none ∧
      (callAgent env agentName prompt timeoutMs retries delay eb).1.text ≠ "") ∧
    (∀ (attempt : Nat) (t : LaunchTerminal),
      (callAgentOnce agentName prompt timeoutMs attempt t).success = true →
      (callAgentOnce agentName prompt timeoutMs attempt t).errorCode = none ∧
      (callAgentOnce agentName prompt timeoutMs attempt t).text ≠ "") := by
  constructor
  · exact callAgentFrom_success_inv env agentName prompt timeoutMs delay eb (retries + 1) 0 none
      (by intro r hr; cases hr)
  · exact fun attempt t h => callAgentOnce_success_inv agentName prompt timeoutMs attempt t h

/-! ## Fan-Out settling lemmas -/

/-- The settling fold never changes the length of the slot array. -/
theorem settle_foldl_length (values : List AgentResult) :
    ∀ (sched : List Nat) (init : List (Option AgentResult)),
      (sched.foldl (fun acc i =>
          match values[i]? with
          | some w => acc.set i (some w)
          | none => acc) init).length = init.length
  | [], _ => rfl
  | i :: rest, init => by
    simp only [List.foldl_cons]
    rw [settle_foldl_length values rest]
    cases h : values[i]? <;> simp [h]

/-- Characterisation of the settling fold: a slot whose promise produces a
value holds that value as soon as its index occurs anywhere in the completion
schedule — the value written does not depend on when the slot settles. -/
theorem settle_foldl_getElem (values : List AgentResult) :
    ∀ (sched : List Nat) (init : List (Option AgentResult)) (j : Nat) (v : AgentResult),
      values[j]? = some v → j < init.length →
      (sched.foldl (fun acc i =>
          match values[i]? with
          | some w => acc.set i (some w)
          | none => acc) init)[j]? =
        if j ∈ sched then some (some v) else init[j]?
  | [], init, j, v => by
    intro _ _
    simp
  | i :: rest, init, j, v => by
    intro hv hj
    simp only [List.foldl_cons]
    have hlen : (match values[i]? with
        | some w => init.set i (some w)
        | none => init).length = init.length := by
      cases h : values[i]? <;> simp [h]
    rw [settle_foldl_getElem values rest _ j v hv (by rw [hlen]; exact hj)]
    by_cases hjr : j ∈ rest
    · simp [hjr]
    · by_cases hji : j = i
      · subst hji
        rw [if_neg hjr, if_pos (List.mem_cons_self j rest)]
        simp only [hv]
        exact List.getElem?_set_eq_of_lt _ hj
      · rw [if_neg hjr, if_neg (by simp [hji, hjr])]
        cases h : values[i]? with
        | none => simp
        | some w => simp [List.getElem?_set_ne (fun he => hji he.symm)]

/-- C1: for a round with `N ≥ 1` enabled experts, the joined collection has
exactly `N` entries, one settled outcome per enabled expert, in the order of
the enabled experts in the input list — for every completion schedule that
settles each invocation, i.e. regardless of completion order. -/
theorem callExpertsParallel_order (env : ExpertCallEnv) (experts : List ExpertConfig)
    (task : String) (config : ConsiliumConfig) (sched : List Nat)
    (hsched : ∀ i, i < (enabledOf experts).length → i ∈ sched)
    (_hN : 1 ≤ (enabledOf experts).length) :
    callExpertsParallel env experts task config sched =
      ((enabledOf experts).map (runExpert env task config)).map some ∧
    (callExpertsParallel env experts task config sched).length =
      (enabledOf experts).length := by
  have hmain : callExpertsParallel env experts task config sched =
      ((enabledOf experts).map (runExpert env task config)).map some := by
    apply List.ext_getElem?
    intro j
    by_cases hj : j < ((enabledOf experts).map (runExpert env task config)).length
    · have hv : ((enabledOf experts).map (runExpert env task config))[j]? =
          some (((enabledOf experts).map (runExpert env task config))[j]) :=
        List.getElem?_eq_getElem hj
      have hmem : j ∈ sched := hsched j (by simpa using hj)
      calc (callExpertsParallel env experts task config sched)[j]?
          = if j ∈ sched
              then some (some (((enabledOf experts).map (runExpert env task config))[j]))
              else (List.replicate
                ((enabledOf experts).map (runExpert env task config)).length
                  (none : Option AgentResult))[j]? := by
            exact settle_foldl_getElem _ sched _ j _ hv (by simpa using hj)
        _ = some (some (((enabledOf experts).map (runExpert env task config))[j])) := by
            rw [if_pos hmem]
        _ = (((enabledOf experts).map (runExpert env task config)).map some)[j]? := by
            rw [List.getElem?_map, hv]
            rfl
    · have hlen : (callExpertsParallel env experts task config sched).length =
          ((enabledOf experts).map (runExpert env task config)).length := by
        show (settleAll ((enabledOf experts).map (runExpert env task config)) sched).length = _
        unfold settleAll
        rw [settle_foldl_length, List.length_replicate]
      rw [List.getElem?_eq_none (by rw [hlen]; exact Nat.le_of_not_lt hj),
        List.getElem?_eq_none (by simpa using Nat.le_of_not_lt hj)]
  refine ⟨hmain, ?_⟩
  rw [hmain]
  simp

/-- Witness for C1: two enabled experts settled in reversed completion order
still yield two outcomes in input order. -/
theorem callExpertsParallel_order_witness :
    callExpertsParallel ⟨fun _ => envAlwaysOk⟩
        [{ name := "arch" }, { name := "sec" }] "t"
        ⟨[], ⟨"consilium", none, none⟩, ⟨50, 50, 50⟩, ⟨0, 0, 10, true⟩⟩ [1, 0] =
      ((enabledOf [{ name := "arch" }, { name := "sec" }]).map
        (runExpert ⟨fun _ => envAlwaysOk⟩ "t"
          ⟨[], ⟨"consilium", none, none⟩, ⟨50, 50, 50⟩, ⟨0, 0, 10, true⟩⟩)).map some ∧
    (callExpertsParallel ⟨fun _ => envAlwaysOk⟩
        [{ name := "arch" }, { name := "sec" }] "t"
        ⟨[], ⟨"consilium", none, none⟩, ⟨50, 50, 50⟩, ⟨0, 0, 10, true⟩⟩ [1, 0]).length = 2 := by
  have h := callExpertsParallel_order ⟨fun _ => envAlwaysOk⟩
    [{ name := "arch" }, { name := "sec" }] "t"
    ⟨[], ⟨"consilium", none, none⟩, ⟨50, 50, 50⟩, ⟨0, 0, 10, true⟩⟩ [1, 0]
    (by decide) (by decide)
  exact ⟨h.1, by rw [h.2]; decide⟩

/-- Witness for C9 at a concrete successful invocation. -/
theorem invocation_outcome_invariant_witness :
    (callAgent envAlwaysOk "arch" "p" 50 1 10 true).1.success = true ∧
    (callAgent envAlwaysOk "arch" "p" 50 1 10 true).1.errorCode = none ∧
    (callAgent envAlwaysOk "arch" "p" 50 1 10 true).1.text ≠ "" :=
  ⟨by decide, (invocation_outcome_invariant envAlwaysOk "arch" "p" 50 1 10 true).1 (by decide)⟩

/-! ## Round driver theorems -/

/-- C5: a round that observes cancellation after the expert phase settles
returns normally — no thrown error — with the cancelled Round Result, which
carries `success = false` and the distinguishing `cancelled: true` metadata
marker, and the status moves to `cancelled`. -/
theorem run_cancelled_after_experts (config : ConsiliumConfig) (env : RunEnv)
    (h1 : env.opencodeAvailable = true) (h2 : env.onStartThrows = false)
    (h3 : (enabledOf config.experts).isEmpty = false)
    (h4 : env.cancelledAfterExperts = true) :
    runModel config ConsiliumStatus.idle env =
      (Except.ok (createCancelledResult config env.expertResults none),
       ConsiliumStatus.cancelled) ∧
    (createCancelledResult config env.expertResults none).success = false ∧
    (createCancelledResult config env.expertResults none).metadataCancelled = true := by
  refine ⟨?_, rfl, rfl⟩
  simp [runModel, h1, h2, h3, h4]

/-- Witness for C5 at a concrete healthy configuration cancelled after the
expert phase. -/
theorem run_cancelled_after_experts_witness :
    runModel configOneExpert ConsiliumStatus.idle envCancelAfterExperts =
      (Except.ok (createCancelledResult configOneExpert [] none),
       ConsiliumStatus.cancelled) ∧
    (createCancelledResult configOneExpert [] none).success = false ∧
    (createCancelledResult configOneExpert [] none).metadataCancelled = true :=
  run_cancelled_after_experts configOneExpert envCancelAfterExperts rfl rfl (by decide) rfl

/-- C10 counterexample: a first `run` whose CLI-availability precheck fails
throws outside the `try`/`catch` and leaves the status at `running_experts`,
which is none of the terminal statuses `completed`, `failed`, `cancelled` —
refuting the claim that each `run()` moves the status to a terminal value. -/
theorem run_terminal_status_counterexample :
    (runModel configOneExpert ConsiliumStatus.idle envCliMissing).2 =
      ConsiliumStatus.running_experts ∧
    ¬ ((runModel configOneExpert ConsiliumStatus.idle envCliMissing).2 =
        ConsiliumStatus.completed ∨
      (runModel configOneExpert ConsiliumStatus.idle envCliMissing).2 =
        ConsiliumStatus.failed ∨
      (runModel configOneExpert ConsiliumStatus.idle envCliMissing).2 =
        ConsiliumStatus.cancelled) := by
  decide

/-- C10 (amended): `run` throws whenever the status is not `idle`, leaving
the status unchanged; a `run` from `idle` always moves the status out of
`idle` (to a terminal status on every path that enters the round body, but
only to `running_experts` when the CLI-availability precheck throws); no
modelled operation returns the status to `idle`; hence every `run` after the
first on the same instance throws, regardless of how the first round ended. -/
theorem run_single_round (config : ConsiliumConfig) (env env' : RunEnv)
    (st : ConsiliumStatus) :
    (st ≠ ConsiliumStatus.idle →
      runModel config st env = (Except.error "Consilium уже запущен", st)) ∧
    (runModel config ConsiliumStatus.idle env).2 ≠ ConsiliumStatus.idle ∧
    (runModel config (runModel config ConsiliumStatus.idle env).2 env').1 =
      Except.error "Consilium уже запущен" := by
  have hne : ∀ e : RunEnv, (runModel config ConsiliumStatus.idle e).2 ≠ ConsiliumStatus.idle := by
    intro e
    simp only [runModel]
    split_ifs <;> simp_all
  have herr : ∀ (s : ConsiliumStatus) (e : RunEnv), s ≠ ConsiliumStatus.idle →
      runModel config s e = (Except.error "Consilium уже запущен", s) := by
    intro s e hs
    simp only [runModel]
    rw [if_pos hs]
  refine ⟨herr st env, hne env, ?_⟩
  rw [herr _ env' (hne env)]

/-- Witness for C10 (amended): a second `run` on an instance whose first
round completed throws the already-running error. -/
theorem run_single_round_witness :
    runModel configOneExpert ConsiliumStatus.completed envCancelAfterExperts =
      (Except.error "Consilium уже запущен", ConsiliumStatus.completed) ∧
    (runModel configOneExpert ConsiliumStatus.idle envCancelAfterExperts).2 ≠
      ConsiliumStatus.idle :=
  ⟨(run_single_round configOneExpert envCancelAfterExperts envCancelAfterExperts
      ConsiliumStatus.completed).1 (by decide),
   (run_single_round configOneExpert envCancelAfterExperts envCancelAfterExperts
      ConsiliumStatus.completed).2.1⟩

/-! ## Fan-In template theorems -/

/-- String concatenation concatenates the underlying character lists. -/
theorem data_append (s t : String) : (s ++ t).data = s.data ++ t.data := rfl

/-- C8 counterexample: with the chair configured with
`maxExpertTextLength = 1` and outcomes `{a, "XY"}`, `{b, "Y"}`, the default
template's output differs from the template that truncates each text to the
configured maximum — the source truncates at its hard-coded 3000 and never
reads `maxExpertTextLength`, so the two-character text `"XY"` is included
whole. -/
theorem default_chair_prompt_counterexample :
    DEFAULT_CHAIR_PROMPT_TEMPLATE "t"
        [{ agent := "a", text := "XY", success := true },
         { agent := "b", text := "Y", success := true }] ≠
      chairPromptWithConfiguredMax 1 "t"
        [{ agent := "a", text := "XY", success := true },
         { agent := "b", text := "Y", success := true }] := by
  decide

/-- C8 (amended): for every pair of independent-task outcomes and no custom
synthesis function, the default dependent-task input contains each outcome's
identity (uppercased, as the template renders it) and each outcome's text
truncated to the template's hard-coded 3000-character limit — the limit that
coincides with the default `maxExpertTextLength` but is not read from the
configuration. -/
theorem default_chair_prompt_contains (task n1 t1 n2 t2 : String) :
    ((jsToUpperCase n1).data <:+:
      (DEFAULT_CHAIR_PROMPT_TEMPLATE task
        [{ agent := n1, text := t1, success := true },
         { agent := n2, text := t2, success := true }]).data) ∧
    ((t1.data.take 3000) <:+:
      (DEFAULT_CHAIR_PROMPT_TEMPLATE task
        [{ agent := n1, text := t1, success := true },
         { agent := n2, text := t2, success := true }]).data) ∧
    ((jsToUpperCase n2).data <:+:
      (DEFAULT_CHAIR_PROMPT_TEMPLATE task
        [{ agent := n1, text := t1, success := true },
         { agent := n2, text := t2, success := true }]).data) ∧
    ((t2.data.take 3000) <:+:
      (DEFAULT_CHAIR_PROMPT_TEMPLATE task
        [{ agent := n1, text := t1, success := true },
         { agent := n2, text := t2, success := true }]).data) := by
  have hsplit : DEFAULT_CHAIR_PROMPT_TEMPLATE task
      [{ agent := n1, text := t1, success := true },
       { agent := n2, text := t2, success := true }] =
      chairHeader task ++ chairSection { agent := n1, text := t1, success := true } ++
        chairSection { agent := n2, text := t2, success := true } ++ chairFooter := rfl
  refine ⟨⟨(chairHeader task).data ++ "### ".data,
      ("\n").data ++ (t1.data.take 3000) ++ ("\n\n").data ++
        (chairSection { agent := n2, text := t2, success := true }).data ++
        chairFooter.data, ?_⟩,
    ⟨(chairHeader task).data ++ "### ".data ++ (jsToUpperCase n1).data ++ ("\n").data,
      ("\n\n").data ++ (chairSection { agent := n2, text := t2, success := true }).data ++
        chairFooter.data, ?_⟩,
    ⟨(chairHeader task).data ++
        (chairSection { agent := n1, text := t1, success := true }).data ++ "### ".data,
      ("\n").data ++ (t2.data.take 3000) ++ ("\n\n").data ++ chairFooter.data, ?_⟩,
    ⟨(chairHeader task).data ++
        (chairSection { agent := n1, text := t1, success := true }).data ++ "### ".data ++
        (jsToUpperCase n2).data ++ ("\n").data,
      ("\n\n").data ++ chairFooter.data, ?_⟩⟩ <;>
    rw [hsplit] <;> simp [data_append, chairSection, List.append_assoc]

/-! ## Decoder theorems -/

/-- One decoder-loop step appends exactly the line's text contribution. -/
theorem decodeLineStep_eq (acc : List String) (line : List Char) :
    decodeLineStep acc line = acc ++ (textPartOfLine line).toList := by
  simp only [decodeLineStep, textPartOfLine]
  by_cases h1 : jsTrim line = []
  · simp [h1]
  · simp only [h1, if_false]
    cases h2 : jsonParse (jsTrim line) with
    | none => simp
    | some event =>
      by_cases h3 : jsStrEq (jsMember event "type") "text" = true
      · simp only [h3, if_true]
        cases h4 : (jsMember event "part").bind (fun p => jsMember p "text") with
        | none => simp
        | some t => by_cases h5 : jsTruthy t = true <;> simp [h5]
      · simp [h3]

/-- The decoder's fold accumulates the text contributions of the lines in
line order. -/
theorem decode_foldl :
    ∀ (lines : List (List Char)) (acc : List String),
      lines.foldl decodeLineStep acc = acc ++ lines.filterMap textPartOfLine
  | [], acc => by simp
  | line :: rest, acc => by
    simp only [List.foldl_cons]
    rw [decode_foldl rest, decodeLineStep_eq]
    cases h : textPartOfLine line <;> simp [h]

/-- C6: the decoder skips blank lines and lines that fail to parse, and
returns the concatenation, in line order with no separator, of the nested
text payloads of the parseable records of kind "text"; in particular the
claim's literal stream decodes to "AB", and all-blank or all-unparseable
streams decode to the empty string. -/
theorem parseJsonOutput_spec :
    parseJsonOutput
        ("\x7b\"type\":\"text\",\"part\":\x7b\"text\":\"A\"\x7d\x7d\ngarbage\n" ++
         "\x7b\"type\":\"text\",\"part\":\x7b\"text\":\"B\"\x7d\x7d") = "AB" ∧
    parseJsonOutput "\n   \n\t\n" = "" ∧
    parseJsonOutput "garbage\nnot json either\n\x7boops" = "" ∧
    (∀ output : String, parseJsonOutput output =
      String.join ((splitOnNl (jsTrim output.data)).filterMap textPartOfLine)) ∧
    (∀ line : List Char, jsTrim line = [] → textPartOfLine line = none) ∧
    (∀ line : List Char, jsonParse (jsTrim line) = none → textPartOfLine line = none) := by
  refine ⟨by decide, by decide, by decide, fun output => ?_, fun line h => ?_, fun line h => ?_⟩
  · show String.join ((splitOnNl (jsTrim output.data)).foldl decodeLineStep []) = _
    rw [decode_foldl]
    simp
  · simp [textPartOfLine, h]
  · simp [textPartOfLine, h]

/-- Witness for C6: a blank line and an unparseable line each contribute
nothing. -/
theorem parseJsonOutput_spec_witness :
    textPartOfLine "   ".data = none ∧ textPartOfLine "garbage".data = none :=
  ⟨parseJsonOutput_spec.2.2.2.2.1 "   ".data (by rfl),
   parseJsonOutput_spec.2.2.2.2.2 "garbage".data (by rfl)⟩

end Consilium
